import Mathlib

/-!
Verification of the scan-lifecycle orchestrator implemented in `src/run.py`.

The Python script is shallowly embedded: every function of the script is
translated into a Lean definition over explicit inputs that stand for the
responses of the external AWS services (EC2, Inspector, SNS).  Outbound
service calls are recorded as events, so that claims about call counts and
call arguments can be stated and proved.  Fallible Python calls are
modelled with `Except`; the unbounded `while` loops are given explicit
fuel, always instantiated with provably sufficient gas.
-/

namespace Run

/-- One outbound AWS call made by the script, with the arguments that the
claims talk about. -/
inductive Ev where
  | runInstances (ami : String)
  | terminate (ids : List String)
  | startScan
  | listFindings (maxResults : Nat) (nextToken : Option String)
  | describeFindings (arns : List String)
  | publish (topic msg : String)
deriving DecidableEq, Repr

/-- How a process run ends: `exited c` models `sys.exit(c)` or normal script
end (`exited 0`), `raised` models an uncaught Python exception, `hung` models
a loop that never terminates. -/
inductive Outcome where
  | exited (code : Nat)
  | raised (msg : String)
  | hung
deriving DecidableEq, Repr

/-- Value of a CPython `filter(...)` expression: it carries the elements the
iterator would yield.  Crucially, a filter object defines neither `__bool__`
nor `__len__`, so `bool(runs)` is `True` regardless of the elements; this
semantic fact is recorded by `truthy`. -/
structure PyFilterObject (α : Type) where
  elems : List α
deriving DecidableEq, Repr

/-- Truthiness of a CPython iterator object: always `true`, whatever it
contains (iterators define neither `__bool__` nor `__len__`). -/
def PyFilterObject.truthy (_ : PyFilterObject α) : Bool := true

/-- Embedding of `fetch_amis` (src/run.py lines 21-31): collect each
instance's ImageId across reservations, deduplicated preserving first-seen
order.  A reservation is modelled as the list of its instances' ImageIds. -/
def fetch_amis (reservations : List (List String)) : List String :=
  reservations.foldl
    (fun amis instances =>
      instances.foldl (fun amis ami => if ami ∈ amis then amis else amis ++ [ami]) amis)
    []

/-- Embedding of `start_ec2_intances` (src/run.py lines 34-55; the typo is
the source's).  `launch` stands for `ec2.run_instances` on one AMI and
returns the `InstanceId`s of the launch response, or raises.  The loop
issues one launch per AMI (each issued call recorded as an event); any
raise propagates at once, abandoning the ids of the launches that already
succeeded, exactly as in the source where `instance_ids` is only assembled
after the whole loop. -/
def start_ec2_intances (launch : String → Except String (List String)) :
    List String → List Ev × Except String (List String)
  | [] => ([], Except.ok [])
  | ami :: rest =>
    match launch ami with
    | Except.error e => ([Ev.runInstances ami], Except.error e)
    | Except.ok resp =>
      let r := start_ec2_intances launch rest
      (Ev.runInstances ami :: r.1, r.2.map (fun ids => resp ++ ids))

/-- Embedding of `terminate_ec2_instances` (src/run.py lines 58-59): a single
`terminate_instances` call with the whole id list. -/
def terminate_ec2_instances (instance_ids : List String) : Ev :=
  Ev.terminate instance_ids

/-- Terminal assessment-run states checked by the poll loop
(src/run.py line 85). -/
def terminalState (s : String) : Bool :=
  s == "COMPLETED" || s == "COMPLETED_WITH_ERRORS"

/-- Result of `await_inspector_results`: the returned boolean, the number of
`describe_assessment_runs` calls issued, and the fatal log lines emitted. -/
structure AwaitResult where
  completed : Bool
  polls : Nat
  fatalLogs : List String
deriving DecidableEq, Repr

/-- Loop body of `await_inspector_results` (src/run.py lines 75-96).
`svc i` is the `assessmentRuns` list of the response to the `(i+1)`-th
`describe_assessment_runs` call; a record is modelled as its
`createdAt` date (a `Nat` code) paired with its `state`.  Each iteration:
fetch, filter client-side by date (a CPython `filter` object), log a fatal
line if the filter object is falsy (it never is), return `true` on the
first terminal record, otherwise sleep 60, add 60 to the total wait and
return `false` once the total reaches 7260.  The fuel argument only bounds
the recursion; 121 iterations always reach the budget check first. -/
def await_loop (svc : Nat → List (Nat × String)) (day : Nat) :
    Nat → Nat → AwaitResult
  | 0, i => ⟨false, i, []⟩
  | fuel + 1, i =>
    let runs : PyFilterObject (Nat × String) := ⟨(svc i).filter (fun r => r.1 == day)⟩
    let logs : List String := if runs.truthy then [] else ["No assessment runs found!"]
    if runs.elems.any (fun r => terminalState r.2) then ⟨true, i + 1, logs⟩
    else if 7260 ≤ 60 * (i + 1) then ⟨false, i + 1, logs⟩
    else
      let rest := await_loop svc day fuel (i + 1)
      ⟨rest.completed, rest.polls, logs ++ rest.fatalLogs⟩

/-- Embedding of `await_inspector_results` (src/run.py lines 70-97):
`max_total_wait = 7260`, `sleep_time = 60`, so at most 121 iterations. -/
def await_inspector_results (svc : Nat → List (Nat × String)) (day : Nat) : AwaitResult :=
  await_loop svc day 121 0

/-- Whether the `(i+1)`-th poll observes a terminal state among the records
whose creation date matches `day` (the source's filter + for-loop). -/
def pollObserves (svc : Nat → List (Nat × String)) (day i : Nat) : Bool :=
  ((svc i).filter (fun r => r.1 == day)).any (fun r => terminalState r.2)

/-- Python falsiness of the `nextToken` field: `None` or the empty string
(src/run.py lines 103-121 use `""` and `if not next_token`). -/
def tokenFalsy : Option String → Bool
  | none => true
  | some s => s == ""

/-- One `list_findings` request as issued by the source: `maxResults=500`
always, and the `nextToken` of the previous response when one was present. -/
structure LFReq where
  maxResults : Nat
  nextToken : Option String
deriving DecidableEq, Repr

/-- Loop of `retrieve_finding_arns` (src/run.py lines 100-122).  `svc`
stands for `inspector.list_findings`, mapping the token passed (none on the
first request) to the response's `findingArns` page and `nextToken`.  The
accumulated arns and the trace of issued requests are returned; `none`
means the fuel ran out before the service stopped returning tokens
(the Python loop would still be running). -/
def lf_go (svc : Option String → List α × Option String) :
    Nat → Option String → Option (List α × List LFReq)
  | 0, _ => none
  | fuel + 1, tok =>
    let resp := svc tok
    let req : LFReq := ⟨500, tok⟩
    if tokenFalsy resp.2 then some (resp.1, [req])
    else
      match lf_go svc fuel resp.2 with
      | none => none
      | some (rest, reqs) => some (resp.1 ++ rest, req :: reqs)

/-- Embedding of `retrieve_finding_arns`: start with the falsy token `""`,
i.e. the first request carries no token. -/
def retrieve_finding_arns (svc : Option String → List α × Option String)
    (fuel : Nat) : Option (List α × List LFReq) :=
  lf_go svc fuel none

/-- Canonical continuation token pointing at page `i`: absent for page 0,
otherwise a nonempty string encoding `i` in its length. -/
def pageTok : Nat → Option String
  | 0 => none
  | i + 1 => some (String.mk (List.replicate (i + 1) 'x'))

/-- Page index encoded by a token (inverse of `pageTok`). -/
def tokIdx : Option String → Nat
  | none => 0
  | some s => s.length

/-- A paginating listing service delivering the pages of `pages` in order,
linked by `pageTok` continuation tokens; the last response carries no
token. -/
def svcOfPages (pages : List (List α)) (t : Option String) :
    List α × Option String :=
  let i := tokIdx t
  (pages.getD i [], if i + 1 < pages.length then pageTok (i + 1) else none)

/-- Batching of `retrieve_findings` (src/run.py lines 125-136): the list of
argument lists passed to successive `describe_findings` calls.  For each
`index` in `range(ceil(n / 100))` the source slices
`finding_arns[index*100 : pagination_end]` where `pagination_end` is
`index*100 + 99`, clamped to `n - 1` when it exceeds `n`; a Python slice is
half-open, rendered here as `drop`/`take`. -/
def retrieve_findings_batches (finding_arns : List α) : List (List α) :=
  let n := finding_arns.length
  (List.range ((n + 99) / 100)).map (fun index =>
    let s := index * 100
    let e := if s + 99 > n then n - 1 else s + 99
    (finding_arns.drop s).take (e - s))

/-- Embedding of `retrieve_findings`: one `describe_findings` call per
batch, results concatenated in batch order. -/
def retrieve_findings (describe : List α → List β) (finding_arns : List α) :
    List β :=
  ((retrieve_findings_batches finding_arns).map describe).flatten

/-- Indices of `finding_arns` that hydration actually passes to
`describe_findings`, for a list of length `n`. -/
def hydratedIndices (n : Nat) : List Nat :=
  (retrieve_findings_batches (List.range n)).flatten

/-- Rendering of the severity filter `{'severities': ['High']}` as Python
`str` interpolates it into the alert message (src/run.py lines 206, 217). -/
def findingFilterStr : String :=
  "\x7b\x27severities\x27: [\x27High\x27]\x7d"

/-- The alert message composed at src/run.py line 217. -/
def mkMessage (amount : Nat) (ffilter : String) : String :=
  "Inspector scan resulted in " ++ toString amount ++ " findings with filter " ++ ffilter

/-- Embedding of `publish_finding_data` (src/run.py lines 139-143): one
`sns.publish` call. -/
def publish_finding_data (topic message : String) : Ev :=
  Ev.publish topic message

/-- All external behaviour a run can encounter, i.e. the inputs of
`__main__`: the EC2 describe-instances reservations, the per-AMI launch
outcome, the readiness waiter outcome, the `start_assessment_run` outcome,
the poll responses, today's date code, the finding pages the listing
service holds, and the configured SNS topic. -/
structure World where
  reservations : List (List String)
  launch : String → Except String (List String)
  waitResult : Except String Unit
  startScanResult : Except String String
  day : Nat
  pollSvc : Nat → List (Nat × String)
  pages : List (List String)
  sns_alert_topic : String

/-- The body of the `try` block of `__main__` (src/run.py lines 189-221):
wait for readiness, start the scan, await results (return value ignored,
as in the source), retrieve finding arns unconditionally, then publish one
alert iff the arn list is nonempty.  The fuel `pages.length + 1` is always
sufficient for the canonical paginating service. -/
def mainTryBody (w : World) : List Ev × Outcome :=
  match w.waitResult with
  | Except.error e => ([], Outcome.raised e)
  | Except.ok _ =>
    match w.startScanResult with
    | Except.error e => ([Ev.startScan], Outcome.raised e)
    | Except.ok _arn =>
      let _awaited := await_inspector_results w.pollSvc w.day
      match retrieve_finding_arns (svcOfPages w.pages) (w.pages.length + 1) with
      | none => ([Ev.startScan], Outcome.hung)
      | some (finding_arns, reqs) =>
        let lfEvs := reqs.map (fun r => Ev.listFindings r.maxResults r.nextToken)
        let alertEvs :=
          if finding_arns = [] then []
          else [publish_finding_data w.sns_alert_topic
                  (mkMessage finding_arns.length findingFilterStr)]
        (Ev.startScan :: (lfEvs ++ alertEvs), Outcome.exited 0)

/-- Embedding of `__main__` (src/run.py lines 146-226): fetch AMIs and
`sys.exit(1)` if none; launch instances (before the `try`, so a launch
failure propagates without reaching the `finally`); then run the `try`
body and, unless the body hangs, always execute the `finally` teardown
exactly once with the accumulated `instance_ids`. -/
def mainRun (w : World) : List Ev × Outcome :=
  let amis := fetch_amis w.reservations
  if amis = [] then ([], Outcome.exited 1)
  else
    match start_ec2_intances w.launch amis with
    | (launchEvs, Except.error e) => (launchEvs, Outcome.raised e)
    | (launchEvs, Except.ok instance_ids) =>
      match mainTryBody w with
      | (bodyEvs, Outcome.hung) => (launchEvs ++ bodyEvs, Outcome.hung)
      | (bodyEvs, out) =>
        (launchEvs ++ bodyEvs ++ [terminate_ec2_instances instance_ids], out)

/-- Event classifiers used to count calls in a trace. -/
def isRunInstancesEv : Ev → Bool
  | Ev.runInstances _ => true
  | _ => false

def isTerminateEv : Ev → Bool
  | Ev.terminate _ => true
  | _ => false

def isListFindingsEv : Ev → Bool
  | Ev.listFindings _ _ => true
  | _ => false

def isDescribeFindingsEv : Ev → Bool
  | Ev.describeFindings _ => true
  | _ => false

def isPublishEv : Ev → Bool
  | Ev.publish _ _ => true
  | _ => false

/-! ## Poll-loop lemmas (claims C2, C5) -/

lemma await_loop_succ (svc : Nat → List (Nat × String)) (day fuel i : Nat) :
    await_loop svc day (fuel + 1) i =
      if pollObserves svc day i then ⟨true, i + 1, []⟩
      else if 7260 ≤ 60 * (i + 1) then ⟨false, i + 1, []⟩
      else
        let rest := await_loop svc day fuel (i + 1)
        ⟨rest.completed, rest.polls, rest.fatalLogs⟩ := by
  simp [await_loop, PyFilterObject.truthy, pollObserves]

lemma await_loop_never (svc : Nat → List (Nat × String)) (day : Nat)
    (hnever : ∀ t, pollObserves svc day t = false) :
    ∀ f i, i + f = 121 → await_loop svc day f i = ⟨false, 121, []⟩ := by
  intro f
  induction f with
  | zero =>
    intro i h
    have : i = 121 := by omega
    simp [await_loop, this]
  | succ f ih =>
    intro i h
    rw [await_loop_succ, hnever i]
    by_cases hb : 7260 ≤ 60 * (i + 1)
    · have : i = 120 := by omega
      simp [hb, this]
    · have hf : 0 < f := by omega
      simp only [if_neg hb, Bool.false_eq_true, if_false]
      rw [ih (i + 1) (by omega)]

lemma await_loop_first_at (svc : Nat → List (Nat × String)) (day : Nat) :
    ∀ k f i, 0 < k → i + f = 121 → i + k ≤ 121 →
      (∀ t, i ≤ t → t + 1 < i + k → pollObserves svc day t = false) →
      pollObserves svc day (i + k - 1) = true →
      await_loop svc day f i = ⟨true, i + k, []⟩ := by
  intro k
  induction k with
  | zero => intro f i h; omega
  | succ k ih =>
    intro f i _ hsum hle hns hterm
    obtain ⟨f', rfl⟩ : ∃ f', f = f' + 1 := ⟨f - 1, by omega⟩
    rw [await_loop_succ]
    rcases Nat.eq_zero_or_pos k with hk0 | hkpos
    · subst hk0
      have : i + 1 - 1 = i := by omega
      rw [this] at hterm
      simp [hterm]
    · have hni : pollObserves svc day i = false := hns i (Nat.le_refl i) (by omega)
      have hb : ¬ 7260 ≤ 60 * (i + 1) := by omega
      simp only [hni, Bool.false_eq_true, if_false, if_neg hb]
      have := ih f' (i + 1) hkpos (by omega) (by omega)
        (fun t ht h2 => hns t (by omega) (by omega))
        (by have : i + 1 + k - 1 = i + (k + 1) - 1 := by omega
            rw [this]; exact hterm)
      have heq : i + 1 + k = i + (k + 1) := by omega
      rw [heq] at this
      rw [this]

/-- Claim C2 — poll-loop counts: with the fixed 60-unit interval and the
7260-unit budget, if the `k`-th poll (`k · 60 < 7260`) is the first to
observe a terminal state (`COMPLETED` or `COMPLETED_WITH_ERRORS`) among
the date-matching records, `await_inspector_results` returns success
having issued exactly `k` polls; if no poll ever observes a terminal
state, it returns failure having issued exactly `7260 / 60 = 121` polls
and issues none after. -/
theorem c2_poll_counts (svc : Nat → List (Nat × String)) (day : Nat) :
    (∀ k, 0 < k → 60 * k < 7260 →
      (∀ t, t + 1 < k → pollObserves svc day t = false) →
      pollObserves svc day (k - 1) = true →
      await_inspector_results svc day = ⟨true, k, []⟩)
    ∧ ((∀ t, pollObserves svc day t = false) →
      await_inspector_results svc day = ⟨false, 121, []⟩) := by
  constructor
  · intro k hk hbudget hns hterm
    have := await_loop_first_at svc day k 121 0 hk (by omega) (by omega)
      (fun t _ h2 => hns t (by omega)) (by simpa using hterm)
    simpa [await_inspector_results] using this
  · intro hnever
    exact await_loop_never svc day hnever 121 0 rfl

def svcC2 : Nat → List (Nat × String) :=
  fun i => if i = 2 then [(0, "COMPLETED")] else [(0, "RUNNING")]

/-- Witness for `c2_poll_counts`: a service that completes at the third
poll, and one that never completes. -/
theorem c2_poll_counts_witness :
    await_inspector_results svcC2 0 = ⟨true, 3, []⟩
    ∧ await_inspector_results (fun _ => []) 0 = ⟨false, 121, []⟩ := by
  constructor
  · exact (c2_poll_counts svcC2 0).1 3 (by decide) (by decide)
      (fun t ht => by
        match t, ht with
        | 0, _ => decide
        | 1, _ => decide)
      (by decide)
  · exact (c2_poll_counts (fun _ => []) 0).2 (fun t => rfl)

def svcC5 : Nat → List (Nat × String) :=
  fun i => if i = 0 then [(9, "RUNNING")] else [(5, "COMPLETED")]

/-- Claim C5 — refuting evaluation (code bug): on `day = 5` the first
poll response holds a single record created on day 9, so the
date-filtered record list is empty; the poll loop does continue (the
second poll observes completion), but no anomaly is ever logged —
`fatalLogs` is empty — because the source guards the log with
`if not runs:` where `runs` is a CPython `filter` object, which is
always truthy. -/
theorem c5_dead_anomaly_log :
    ((svcC5 0).filter (fun r => r.1 == 5)) = []
    ∧ await_inspector_results svcC5 5 = ⟨true, 2, []⟩ := by
  constructor
  · decide
  · decide

/-! ## Hydration-batching lemmas (claims C4, C7) -/

lemma range'_take : ∀ (m s t : Nat), (List.range' s m).take t = List.range' s (min t m) := by
  intro m
  induction m with
  | zero => intro s t; simp
  | succ m ih =>
    intro s t
    cases t with
    | zero => simp
    | succ t =>
      rw [List.range'_succ]
      simp only [List.take_succ_cons, ih (s + 1) t]
      have : min (t + 1) (m + 1) = min t m + 1 := by omega
      rw [this, List.range'_succ]

lemma range'_drop : ∀ (m s d : Nat), (List.range' s m).drop d = List.range' (s + d) (m - d) := by
  intro m
  induction m with
  | zero => intro s d; simp
  | succ m ih =>
    intro s d
    cases d with
    | zero => simp
    | succ d =>
      rw [List.range'_succ]
      simp only [List.drop_succ_cons, ih (s + 1) d]
      congr 1 <;> omega

lemma mem_slice (n s t j : Nat) :
    j ∈ ((List.range n).drop s).take t ↔ (s ≤ j ∧ j < n ∧ j < s + t) := by
  rw [List.range_eq_range', range'_drop, range'_take, List.mem_range'_1]
  constructor
  · rintro ⟨h1, h2⟩
    have := Nat.min_le_left t (n - s)
    have := Nat.min_le_right t (n - s)
    omega
  · rintro ⟨h1, h2, h3⟩
    refine ⟨by omega, ?_⟩
    rw [Nat.min_def]
    split <;> omega

/-- Claim C4, amended — Python slices are half-open, so batch `index`
passes the identifiers at indices `[index * 100, e)` where
`e = index * 100 + 99`, clamped to `n - 1` in the final batch.  Hence the
identifier at index `j` is passed to `describe_findings` iff
`j % 100 ≠ 99` and not (`n % 100` is neither 0 nor 99 and `j = n - 1`):
every batch spanning 100 available identifiers omits its 100th, not only
the final batch. -/
theorem c4_halfopen_windows (n j : Nat) :
    j ∈ hydratedIndices n ↔
      (j < n ∧ j % 100 ≠ 99 ∧ ¬(n % 100 ≠ 0 ∧ n % 100 ≠ 99 ∧ j = n - 1)) := by
  unfold hydratedIndices retrieve_findings_batches
  simp only [List.length_range, List.mem_flatten, List.mem_map, List.mem_range]
  constructor
  · rintro ⟨l, ⟨i, hi, rfl⟩, hj⟩
    rw [mem_slice] at hj
    by_cases hc : i * 100 + 99 > n
    · simp only [if_pos hc] at hj
      omega
    · simp only [if_neg hc] at hj
      omega
  · rintro ⟨h1, h2, h3⟩
    refine ⟨_, ⟨j / 100, ?_, rfl⟩, ?_⟩
    · omega
    · rw [mem_slice]
      by_cases hc : j / 100 * 100 + 99 > n
      · simp only [if_pos hc]
        omega
      · simp only [if_neg hc]
        omega

set_option maxRecDepth 4000 in
/-- Claim C4 — counterexample to the claim as stated: for 250
identifiers the claim permits only index 249, the final identifier of the
final batch, to be omitted from hydration; but index 99 is already
omitted from the first batch. -/
theorem c4_counterexample :
    99 < 250 ∧ 99 ∉ hydratedIndices 250 ∧ 99 ≠ 250 - 1 := by decide

/-- Claim C7 — `retrieve_findings` issues exactly `ceil(n / 100)`
detail-retrieval calls for `n` identifiers; in particular exactly 3 calls
for `n = 250`. -/
theorem c7_batch_count :
    (∀ (α : Type) (arns : List α),
      (retrieve_findings_batches arns).length = (arns.length + 99) / 100)
    ∧ (retrieve_findings_batches (List.range 250)).length = 3 := by
  constructor
  · intro α arns
    simp [retrieve_findings_batches]
  · simp [retrieve_findings_batches]

/-! ## Pagination lemmas (claim C6) -/

lemma tokIdx_pageTok (i : Nat) : tokIdx (pageTok i) = i := by
  cases i with
  | zero => rfl
  | succ i => simp [tokIdx, pageTok, String.length]

lemma pageTok_not_falsy (i : Nat) : tokenFalsy (pageTok (i + 1)) = false := by
  simp only [pageTok, tokenFalsy]
  rw [beq_eq_false_iff_ne]
  intro h
  rw [String.ext_iff] at h
  simp [List.replicate_succ] at h

lemma svcOfPages_pageTok (pages : List (List α)) (k : Nat) :
    svcOfPages pages (pageTok k)
      = (pages.getD k [], if k + 1 < pages.length then pageTok (k + 1) else none) := by
  simp [svcOfPages, tokIdx_pageTok]

lemma lf_go_pages (pages : List (List α)) :
    ∀ (f k g : Nat), 0 < f → k + f = pages.length → f ≤ g →
      lf_go (svcOfPages pages) g (pageTok k)
        = some ((pages.drop k).flatten,
            (List.range' k f).map (fun i => LFReq.mk 500 (pageTok i))) := by
  intro f
  induction f with
  | zero => intro k g h; omega
  | succ f ih =>
    intro k g _ hsum hg
    obtain ⟨g', rfl⟩ : ∃ g', g = g' + 1 := ⟨g - 1, by omega⟩
    have hk : k < pages.length := by omega
    rw [lf_go]
    rw [svcOfPages_pageTok]
    by_cases hlt : k + 1 < pages.length
    · have hf : 0 < f := by omega
      simp only [if_pos hlt, pageTok_not_falsy k, Bool.false_eq_true, if_false]
      rw [ih (k + 1) g' hf (by omega) (by omega)]
      rw [List.drop_eq_getElem_cons hk, List.flatten_cons, List.range'_succ]
      simp [List.getElem?_eq_getElem hk]
    · have hf : f = 0 := by omega
      subst hf
      simp only [if_neg hlt, tokenFalsy, if_pos rfl]
      rw [List.drop_eq_getElem_cons hk]
      have : pages.drop (k + 1) = [] := List.drop_eq_nil_of_le (by omega)
      rw [this, List.range'_succ]
      simp [List.getElem?_eq_getElem hk]

/-- Claim C6 — pagination: against a service holding any nonempty
sequence of pages linked by continuation tokens, `retrieve_finding_arns`
returns the concatenation of all pages in receipt order, issuing exactly
one request per page; every request carries `maxResults = 500`, the first
carries no token and each later request carries exactly the token of the
previous response; every response but the last carries a non-falsy token
and the last response's token is falsy, so the loop stops exactly at the
first response without a continuation token. -/
theorem c6_pagination (α : Type) (pages : List (List α)) (h : pages ≠ []) :
    (retrieve_finding_arns (svcOfPages pages) pages.length
      = some (pages.flatten,
          (List.range pages.length).map (fun i => LFReq.mk 500 (pageTok i))))
    ∧ ((List.range pages.length).map (fun i => LFReq.mk 500 (pageTok i))).length
        = pages.length
    ∧ (∀ r ∈ (List.range pages.length).map (fun i => LFReq.mk 500 (pageTok i)),
        r.maxResults = 500)
    ∧ (∀ i, i + 1 < pages.length →
        (svcOfPages pages (pageTok i)).2 = pageTok (i + 1))
    ∧ (∀ i, i + 1 < pages.length →
        tokenFalsy (svcOfPages pages (pageTok i)).2 = false)
    ∧ tokenFalsy (svcOfPages pages (pageTok (pages.length - 1))).2 = true := by
  have hlen : 0 < pages.length := List.length_pos.mpr h
  refine ⟨?_, ?_, ?_, ?_, ?_, ?_⟩
  · unfold retrieve_finding_arns
    have := lf_go_pages pages pages.length 0 pages.length hlen (by omega) (Nat.le_refl _)
    rw [← List.range_eq_range'] at this
    simpa [pageTok] using this
  · simp
  · intro r hr
    simp only [List.mem_map] at hr
    obtain ⟨i, _, rfl⟩ := hr
    rfl
  · intro i hi
    rw [svcOfPages_pageTok]
    simp [hi]
  · intro i hi
    rw [svcOfPages_pageTok]
    simp [hi, pageTok_not_falsy]
  · rw [svcOfPages_pageTok]
    have hno : ¬ (pages.length - 1 + 1 < pages.length) := by omega
    simp [hno, tokenFalsy]

def pages1200 : List (List Nat) :=
  [List.range' 0 500, List.range' 500 500, List.range' 1000 200]

/-- Witness for `c6_pagination`: the 1200-identifier listing of the
claim, delivered in three pages of 500, 500 and 200: three requests and
1200 identifiers in receipt order. -/
theorem c6_pagination_witness :
    ((retrieve_finding_arns (svcOfPages pages1200) pages1200.length
      = some (pages1200.flatten,
          (List.range pages1200.length).map (fun i => LFReq.mk 500 (pageTok i))))
    ∧ ((List.range pages1200.length).map (fun i => LFReq.mk 500 (pageTok i))).length
        = pages1200.length
    ∧ (∀ r ∈ (List.range pages1200.length).map (fun i => LFReq.mk 500 (pageTok i)),
        r.maxResults = 500)
    ∧ (∀ i, i + 1 < pages1200.length →
        (svcOfPages pages1200 (pageTok i)).2 = pageTok (i + 1))
    ∧ (∀ i, i + 1 < pages1200.length →
        tokenFalsy (svcOfPages pages1200 (pageTok i)).2 = false)
    ∧ tokenFalsy (svcOfPages pages1200 (pageTok (pages1200.length - 1))).2 = true)
    ∧ pages1200.length = 3 ∧ pages1200.flatten.length = 1200 :=
  ⟨c6_pagination Nat pages1200 (by decide), by decide, by simp [pages1200]⟩

/-! ## Entry-point lemmas (claims C1, C3, C8, C9, C10) -/

lemma retrieve_in_main (pages : List (List α)) :
    retrieve_finding_arns (svcOfPages pages) (pages.length + 1)
      = some (pages.flatten,
          if pages.length = 0 then [LFReq.mk 500 none]
          else (List.range pages.length).map (fun i => LFReq.mk 500 (pageTok i))) := by
  cases pages with
  | nil => rfl
  | cons p ps =>
    have h := lf_go_pages (p :: ps) (p :: ps).length 0 ((p :: ps).length + 1)
      (by simp) (by omega) (by omega)
    rw [← List.range_eq_range'] at h
    rw [retrieve_finding_arns]
    have hnone : lf_go (svcOfPages (p :: ps)) ((p :: ps).length + 1) none
        = lf_go (svcOfPages (p :: ps)) ((p :: ps).length + 1) (pageTok 0) := rfl
    rw [hnone, h]
    simp

lemma start_ec2_events_run (launch : String → Except String (List String)) :
    ∀ amis, ∀ e ∈ (start_ec2_intances launch amis).1, ∃ a, e = Ev.runInstances a := by
  intro amis
  induction amis with
  | nil => intro e he; simp [start_ec2_intances] at he
  | cons ami rest ih =>
    intro e he
    simp only [start_ec2_intances] at he
    rcases hl : launch ami with err | resp
    · rw [hl] at he
      simp at he
      exact ⟨ami, he⟩
    · rw [hl] at he
      simp at he
      rcases he with rfl | he
      · exact ⟨ami, rfl⟩
      · exact ih e he

/-- The full trace and outcome of a run that reaches the scan phase:
AMIs found, every launch succeeded, the waiter and `start_assessment_run`
succeeded.  Whatever the poll service does, the run lists findings, alerts
iff findings exist, terminates the instances once and exits 0. -/
lemma mainRun_reach (w : World) (h1 : fetch_amis w.reservations ≠ [])
    (evs : List Ev) (ids : List String)
    (hL : start_ec2_intances w.launch (fetch_amis w.reservations) = (evs, Except.ok ids))
    (hW : w.waitResult = Except.ok ())
    (arn : String) (hS : w.startScanResult = Except.ok arn) :
    mainRun w =
      (evs ++ (Ev.startScan ::
        ((if w.pages.length = 0 then [LFReq.mk 500 none]
          else (List.range w.pages.length).map (fun i => LFReq.mk 500 (pageTok i))).map
            (fun r => Ev.listFindings r.maxResults r.nextToken)
         ++ (if w.pages.flatten = [] then []
             else [Ev.publish w.sns_alert_topic
                     (mkMessage w.pages.flatten.length findingFilterStr)])))
        ++ [Ev.terminate ids], Outcome.exited 0) := by
  unfold mainRun
  simp only [if_neg h1, hL]
  unfold mainTryBody
  rw [hW, hS]
  rw [retrieve_in_main]
  simp [terminate_ec2_instances, publish_finding_data]

/-- Launch-phase events are all `runInstances`; counting any other event
kind over them gives zero. -/
lemma countP_start_ec2 (launch : String → Except String (List String))
    (amis : List String) (p : Ev → Bool) (hp : ∀ a, p (Ev.runInstances a) = false) :
    (start_ec2_intances launch amis).1.countP p = 0 := by
  rw [List.countP_eq_zero]
  intro e he
  obtain ⟨a, rfl⟩ := start_ec2_events_run launch amis e he
  simp [hp]

/-- Claim C9 — a run whose image discovery comes back empty exits with
code 1 having performed no calls at all: the trace is empty, so in
particular zero launch and zero termination calls. -/
theorem c9_no_amis_aborts (w : World) (h : fetch_amis w.reservations = []) :
    mainRun w = ([], Outcome.exited 1)
    ∧ (mainRun w).1.countP isRunInstancesEv = 0
    ∧ (mainRun w).1.countP isTerminateEv = 0 := by
  have hm : mainRun w = ([], Outcome.exited 1) := by
    unfold mainRun
    simp [h]
  exact ⟨hm, by rw [hm]; rfl, by rw [hm]; rfl⟩

/-- A world with no running instances at all: discovery finds nothing. -/
def wEmpty : World :=
  ⟨[], fun _ => Except.ok [], Except.ok (), Except.ok "arn", 0, fun _ => [], [], "topic"⟩

/-- Witness for `c9_no_amis_aborts` at a world with no reservations. -/
theorem c9_no_amis_aborts_witness :
    mainRun wEmpty = ([], Outcome.exited 1)
    ∧ (mainRun wEmpty).1.countP isRunInstancesEv = 0
    ∧ (mainRun wEmpty).1.countP isTerminateEv = 0 :=
  c9_no_amis_aborts wEmpty rfl

/-- A world in which two AMIs are discovered, the first launch succeeds
returning instance `i-1` and the second launch raises. -/
def wLaunchFail : World :=
  ⟨[["ami-1", "ami-2"]],
   fun a => if a = "ami-1" then Except.ok ["i-1"] else Except.error "launch-failure",
   Except.ok (), Except.ok "arn", 0, fun _ => [], [], "topic"⟩

/-- Claim C1 — refuting evaluation: when the second of two launches raises
after the first already returned instance `i-1`, the run aborts with the
launch exception and the trace contains no `terminate_instances` call at
all (the `try`/`finally` block only begins after `start_ec2_intances`
returns), so the already-launched instance is never submitted for
termination. -/
theorem c1_teardown_gap :
    mainRun wLaunchFail
      = ([Ev.runInstances "ami-1", Ev.runInstances "ami-2"],
         Outcome.raised "launch-failure")
    ∧ wLaunchFail.launch "ami-1" = Except.ok ["i-1"]
    ∧ (mainRun wLaunchFail).1.countP isTerminateEv = 0 := by
  refine ⟨by decide, rfl, by decide⟩

/-- Claim C3 — exhausting the poll budget yields the return value
`false` (the embedded `await_inspector_results` is a total function: the
source has no `raise` on that path), yet every run that reaches the scan
phase issues at least one `list_findings` request, whatever the poll
service reported: the first request (maxResults 500, no token) is always
in the trace. -/
theorem c3_retrieval_unconditional (w : World)
    (h1 : fetch_amis w.reservations ≠ [])
    (evs : List Ev) (ids : List String)
    (hL : start_ec2_intances w.launch (fetch_amis w.reservations) = (evs, Except.ok ids))
    (hW : w.waitResult = Except.ok ())
    (arn : String) (hS : w.startScanResult = Except.ok arn) :
    ((∀ t, pollObserves w.pollSvc w.day t = false) →
      await_inspector_results w.pollSvc w.day = ⟨false, 121, []⟩)
    ∧ Ev.listFindings 500 none ∈ (mainRun w).1
    ∧ 0 < (mainRun w).1.countP isListFindingsEv := by
  have hmem : Ev.listFindings 500 none ∈ (mainRun w).1 := by
    rw [mainRun_reach w h1 evs ids hL hW arn hS]
    have hin : Ev.listFindings 500 none
        ∈ (if w.pages.length = 0 then [LFReq.mk 500 none]
           else (List.range w.pages.length).map (fun i => LFReq.mk 500 (pageTok i))).map
             (fun r => Ev.listFindings r.maxResults r.nextToken) := by
      by_cases hp : w.pages.length = 0
      · simp [hp]
      · simp only [if_neg hp, List.mem_map]
        refine ⟨LFReq.mk 500 (pageTok 0), ?_, rfl⟩
        simp only [List.mem_map, List.mem_range]
        exact ⟨0, by omega, rfl⟩
    refine List.mem_append.mpr (Or.inl ?_)
    refine List.mem_append.mpr (Or.inr ?_)
    refine List.mem_cons.mpr (Or.inr ?_)
    exact List.mem_append.mpr (Or.inl hin)
  refine ⟨fun hnever => await_loop_never w.pollSvc w.day hnever 121 0 rfl, hmem, ?_⟩
  rw [List.countP_pos_iff]
  exact ⟨Ev.listFindings 500 none, hmem, rfl⟩

/-- A fully successful world: one AMI, one instance, scan runs, one page
with one finding reference. -/
def wOk : World :=
  ⟨[["ami-1"]], fun _ => Except.ok ["i-1"], Except.ok (), Except.ok "arn", 0,
   fun _ => [], [["f1"]], "topic"⟩

/-- Witness for `c3_retrieval_unconditional` at a fully successful
world whose poll service never reports completion. -/
theorem c3_retrieval_unconditional_witness :
    ((∀ t, pollObserves wOk.pollSvc wOk.day t = false) →
      await_inspector_results wOk.pollSvc wOk.day = ⟨false, 121, []⟩)
    ∧ Ev.listFindings 500 none ∈ (mainRun wOk).1
    ∧ 0 < (mainRun wOk).1.countP isListFindingsEv :=
  c3_retrieval_unconditional wOk (by decide)
    [Ev.runInstances "ami-1"] ["i-1"] rfl rfl "arn" rfl

/-- Claim C8 — a run that reaches the scan phase publishes no alert when
the retrieved finding-reference list is empty, and exactly one alert
otherwise, whose message contains the literal count and the severity
filter description. -/
theorem c8_alert_iff_findings (w : World)
    (h1 : fetch_amis w.reservations ≠ [])
    (evs : List Ev) (ids : List String)
    (hL : start_ec2_intances w.launch (fetch_amis w.reservations) = (evs, Except.ok ids))
    (hW : w.waitResult = Except.ok ())
    (arn : String) (hS : w.startScanResult = Except.ok arn) :
    (w.pages.flatten = [] → (mainRun w).1.countP isPublishEv = 0)
    ∧ (w.pages.flatten ≠ [] →
        (mainRun w).1.countP isPublishEv = 1
        ∧ Ev.publish w.sns_alert_topic
            (mkMessage w.pages.flatten.length findingFilterStr) ∈ (mainRun w).1
        ∧ (∃ p q, mkMessage w.pages.flatten.length findingFilterStr
            = p ++ toString w.pages.flatten.length ++ q)
        ∧ (∃ p q, mkMessage w.pages.flatten.length findingFilterStr
            = p ++ findingFilterStr ++ q)) := by
  have htrace := mainRun_reach w h1 evs ids hL hW arn hS
  have hevs : evs.countP isPublishEv = 0 := by
    have h := countP_start_ec2 w.launch (fetch_amis w.reservations) isPublishEv
      (fun a => rfl)
    rw [hL] at h
    exact h
  have hlf : ((if w.pages.length = 0 then [LFReq.mk 500 none]
      else (List.range w.pages.length).map (fun i => LFReq.mk 500 (pageTok i))).map
        (fun r => Ev.listFindings r.maxResults r.nextToken)).countP isPublishEv = 0 := by
    rw [List.countP_eq_zero]
    intro e he
    simp only [List.mem_map] at he
    obtain ⟨r, _, rfl⟩ := he
    simp [isPublishEv]
  constructor
  · intro hempty
    rw [htrace]
    dsimp only
    simp only [List.countP_append, List.countP_cons, hevs, hlf]
    simp [hempty, isPublishEv]
  · intro hne
    refine ⟨?_, ?_, ?_, ?_⟩
    · rw [htrace]
      dsimp only
      simp only [List.countP_append, List.countP_cons, hevs, hlf]
      simp [hne, isPublishEv]
    · rw [htrace]
      dsimp only
      refine List.mem_append.mpr (Or.inl ?_)
      refine List.mem_append.mpr (Or.inr ?_)
      refine List.mem_cons.mpr (Or.inr ?_)
      refine List.mem_append.mpr (Or.inr ?_)
      simp [hne]
    · exact ⟨"Inspector scan resulted in ",
        " findings with filter " ++ findingFilterStr,
        by simp [mkMessage, String.append_assoc]⟩
    · exact ⟨"Inspector scan resulted in " ++ toString w.pages.flatten.length
          ++ " findings with filter ", "",
        by simp [mkMessage, String.append_empty, String.append_assoc]⟩

/-- A successful world whose scan produces no finding references. -/
def wNoFindings : World :=
  ⟨[["ami-1"]], fun _ => Except.ok ["i-1"], Except.ok (), Except.ok "arn", 0,
   fun _ => [], [], "topic"⟩

/-- Witness for `c8_alert_iff_findings`: no publish for a scan with no
findings, exactly one publish for a scan with one finding. -/
theorem c8_alert_iff_findings_witness :
    (mainRun wNoFindings).1.countP isPublishEv = 0
    ∧ ((mainRun wOk).1.countP isPublishEv = 1
       ∧ Ev.publish wOk.sns_alert_topic
           (mkMessage wOk.pages.flatten.length findingFilterStr) ∈ (mainRun wOk).1
       ∧ (∃ p q, mkMessage wOk.pages.flatten.length findingFilterStr
           = p ++ toString wOk.pages.flatten.length ++ q)
       ∧ (∃ p q, mkMessage wOk.pages.flatten.length findingFilterStr
           = p ++ findingFilterStr ++ q)) :=
  ⟨(c8_alert_iff_findings wNoFindings (by decide)
      [Ev.runInstances "ami-1"] ["i-1"] rfl rfl "arn" rfl).1 rfl,
   (c8_alert_iff_findings wOk (by decide)
      [Ev.runInstances "ami-1"] ["i-1"] rfl rfl "arn" rfl).2 (by decide)⟩

/-- Claim C10 — on every run, whatever the world does, the entry point
issues no `describe_findings` call (the trace never contains one:
`retrieve_findings` is defined but never invoked), and any alert that is
published carries the message computed from the length of the
finding-reference identifier list alone. -/
theorem c10_no_hydration (w : World) :
    (mainRun w).1.countP isDescribeFindingsEv = 0
    ∧ (∀ t m, Ev.publish t m ∈ (mainRun w).1 →
        m = mkMessage w.pages.flatten.length findingFilterStr) := by
  by_cases h1 : fetch_amis w.reservations = []
  · have hmain : mainRun w = ([], Outcome.exited 1) := by
      unfold mainRun
      simp [h1]
    rw [hmain]
    exact ⟨rfl, by intro t m hm; simp at hm⟩
  · rcases hE : start_ec2_intances w.launch (fetch_amis w.reservations) with ⟨evs, res⟩
    have hevs0 : evs.countP isDescribeFindingsEv = 0 := by
      have h := countP_start_ec2 w.launch (fetch_amis w.reservations) isDescribeFindingsEv
        (fun a => rfl)
      rw [hE] at h
      exact h
    have hevsP : ∀ t m, Ev.publish t m ∉ evs := by
      intro t m hmem
      have hmem' : Ev.publish t m ∈ (start_ec2_intances w.launch (fetch_amis w.reservations)).1 := by
        rw [hE]
        exact hmem
      obtain ⟨a, ha⟩ := start_ec2_events_run w.launch (fetch_amis w.reservations) _ hmem'
      simp at ha
    rcases res with e | ids
    · have hmain : mainRun w = (evs, Outcome.raised e) := by
        unfold mainRun
        simp only [if_neg h1, hE]
      rw [hmain]
      exact ⟨hevs0, fun t m hm => absurd hm (hevsP t m)⟩
    · rcases hw : w.waitResult with e | u
      · have hbody : mainTryBody w = ([], Outcome.raised e) := by
          unfold mainTryBody
          rw [hw]
        have hmain : mainRun w = (evs ++ [] ++ [Ev.terminate ids], Outcome.raised e) := by
          unfold mainRun
          simp only [if_neg h1, hE, hbody]
          rfl
        rw [hmain]
        constructor
        · simp only [List.countP_append, hevs0]
          rfl
        · intro t m hm
          simp only [List.append_nil, List.mem_append, List.mem_singleton] at hm
          rcases hm with hm | hm
          · exact absurd hm (hevsP t m)
          · simp at hm
      · cases u
        rcases hs : w.startScanResult with e | arn
        · have hbody : mainTryBody w = ([Ev.startScan], Outcome.raised e) := by
            unfold mainTryBody
            rw [hw, hs]
          have hmain : mainRun w
              = (evs ++ [Ev.startScan] ++ [Ev.terminate ids], Outcome.raised e) := by
            unfold mainRun
            simp only [if_neg h1, hE, hbody]
            rfl
          rw [hmain]
          constructor
          · simp only [List.countP_append, hevs0]
            rfl
          · intro t m hm
            simp only [List.mem_append, List.mem_singleton] at hm
            rcases hm with (hm | hm) | hm
            · exact absurd hm (hevsP t m)
            · simp at hm
            · simp at hm
        · have htrace := mainRun_reach w h1 evs ids (by rw [hE]) hw arn hs
          rw [htrace]
          dsimp only
          constructor
          · simp only [List.countP_append, List.countP_cons, hevs0]
            have hlf0 : ((if w.pages.length = 0 then [LFReq.mk 500 none]
                else (List.range w.pages.length).map (fun i => LFReq.mk 500 (pageTok i))).map
                  (fun r => Ev.listFindings r.maxResults r.nextToken)).countP
                    isDescribeFindingsEv = 0 := by
              rw [List.countP_eq_zero]
              intro e he
              simp only [List.mem_map] at he
              obtain ⟨r, _, rfl⟩ := he
              simp [isDescribeFindingsEv]
            rw [hlf0]
            by_cases hfl : w.pages.flatten = [] <;>
              simp [hfl, isDescribeFindingsEv]
          · intro t m hm
            rcases List.mem_append.mp hm with hm1 | hm1
            · rcases List.mem_append.mp hm1 with hm2 | hm2
              · exact absurd hm2 (hevsP t m)
              · rcases List.mem_cons.mp hm2 with hm3 | hm3
                · exact absurd hm3 (by simp)
                · rcases List.mem_append.mp hm3 with hm4 | hm4
                  · exfalso
                    rcases List.mem_map.mp hm4 with ⟨r, _, hr⟩
                    exact absurd hr (by simp)
                  · by_cases hfl : w.pages.flatten = []
                    · rw [if_pos hfl] at hm4
                      simp at hm4
                    · rw [if_neg hfl] at hm4
                      simp only [List.mem_singleton, Ev.publish.injEq] at hm4
                      exact hm4.2
            · exact absurd (List.mem_singleton.mp hm1) (by simp)

/-- Witness for `c10_no_hydration` at a successful world with one
finding: no hydration call, and the published message is determined by
the finding-reference count. -/
theorem c10_no_hydration_witness :
    (mainRun wOk).1.countP isDescribeFindingsEv = 0
    ∧ mkMessage 1 findingFilterStr
        = mkMessage wOk.pages.flatten.length findingFilterStr :=
  ⟨(c10_no_hydration wOk).1,
   (c10_no_hydration wOk).2 "topic" (mkMessage 1 findingFilterStr) (by decide)⟩

end Run
